import Mathlib

/-!
Shallow embedding of the ESP32 mesh networking core
(`src/device-firmware/src/mesh_network.cpp`).  The file-scope globals of
the C source (`peers`, `routingTable`, `sequenceNumber`, `isGateway`,
`lastHeartbeat`, `myMac`) are collected into one `MeshState` record;
`millis()` is passed explicitly as a `now` argument; every call to
`esp_now_send` (via `sendUnicast` / `sendBroadcast`) and every delivery
to the application callback becomes an `OutAction` in the returned list.
Machine integers are modelled as `Nat` with explicit `% 2^w` at the
points where the C code can overflow (`uint8_t` hop counts, `uint16_t`
sequence numbers, `uint32_t` millisecond timestamps).
-/

namespace Mesh

/-- MAX_PEERS from mesh_network.cpp (capacity of both tables). -/
def MAX_PEERS : Nat := 20

/-- HEARTBEAT_INTERVAL in milliseconds. -/
def HEARTBEAT_INTERVAL : Nat := 30000

/-- PEER_TIMEOUT in milliseconds. -/
def PEER_TIMEOUT : Nat := 120000

/-- MSG_DISCOVERY message type tag. -/
def MSG_DISCOVERY : Nat := 1

/-- MSG_HEARTBEAT message type tag. -/
def MSG_HEARTBEAT : Nat := 2

/-- MSG_DATA message type tag. -/
def MSG_DATA : Nat := 3

/-- MSG_ROUTE_REQUEST message type tag. -/
def MSG_ROUTE_REQUEST : Nat := 4

/-- MSG_ROUTE_REPLY message type tag. -/
def MSG_ROUTE_REPLY : Nat := 5

/-- Unsigned 32-bit subtraction `a - b` as the C code computes it on
`uint32_t` operands (wraparound modulo `2^32`). -/
def sub32 (a b : Nat) : Nat :=
  (a % 4294967296 + (4294967296 - b % 4294967296)) % 4294967296

/-- The six-byte all-ones broadcast address used by `sendBroadcast`. -/
def broadcastMac : List Nat := [255, 255, 255, 255, 255, 255]

/-- MeshPeer record (struct MeshPeer). -/
structure MeshPeer where
  mac : List Nat
  rssi : Int
  lastSeen : Nat
  hopCount : Nat
  isGateway : Bool
  isActive : Bool
deriving DecidableEq, Repr

/-- RouteEntry record (struct RouteEntry). -/
structure RouteEntry where
  destination : List Nat
  nextHop : List Nat
  hopCount : Nat
  lastUpdated : Nat
deriving DecidableEq, Repr

/-- MeshMessage record (struct MeshMessage).  `data` is the payload byte
buffer; out-of-range reads of the C array are modelled by `List.getD`
with default 0. -/
structure MeshMessage where
  type : Nat
  srcMac : List Nat
  dstMac : List Nat
  hopCount : Nat
  sequenceNum : Nat
  dataLen : Nat
  data : List Nat
deriving DecidableEq, Repr

/-- The engine state: the file-scope globals of mesh_network.cpp. -/
structure MeshState where
  myMac : List Nat
  peers : List MeshPeer
  routingTable : List RouteEntry
  sequenceNumber : Nat
  isGateway : Bool
  lastHeartbeat : Nat
deriving DecidableEq, Repr

/-- Effects handed to the link driver or the application during one
processing step: `esp_now_send` to a specific address (`sendUnicast`),
`esp_now_send` to the broadcast address (`sendBroadcast`), or an
invocation of the `onDataReceived` application callback. -/
inductive OutAction where
  | unicast (dest : List Nat) (msg : MeshMessage)
  | broadcast (msg : MeshMessage)
  | deliver (src : List Nat) (data : List Nat) (len : Nat)
deriving DecidableEq, Repr

/-- The frames handed to the link driver in a list of actions (unicast
and broadcast sends; application deliveries are not frames). -/
def sentFrames : List OutAction → List MeshMessage
  | [] => []
  | OutAction.unicast _ m :: rest => m :: sentFrames rest
  | OutAction.broadcast m :: rest => m :: sentFrames rest
  | OutAction.deliver _ _ _ :: rest => sentFrames rest

/-- First six bytes of a payload buffer, as `memcmp(data, ·, 6)` /
`memcpy(·, data, 6)` read them (reads past the end default to 0). -/
def data6 (l : List Nat) : List Nat :=
  [l.getD 0 0, l.getD 1 0, l.getD 2 0, l.getD 3 0, l.getD 4 0, l.getD 5 0]

/-- findPeer: index of the first peer entry whose mac equals `mac`,
or none (the C function returns -1). -/
def findPeer (mac : List Nat) : List MeshPeer → Option Nat
  | [] => none
  | p :: rest =>
    if p.mac = mac then some 0
    else (findPeer mac rest).map Nat.succ

/-- removeStalePeers: compact-in-place removal of every entry whose
`now - lastSeen` (uint32 arithmetic) is at least PEER_TIMEOUT. -/
def removeStalePeers (now : Nat) : List MeshPeer → List MeshPeer
  | [] => []
  | p :: rest =>
    if sub32 now p.lastSeen < PEER_TIMEOUT then
      p :: removeStalePeers now rest
    else
      removeStalePeers now rest

/-- addPeer: on a full table first evict stale entries; if still full,
drop the insert (the C function returns -1); otherwise append.
Returns the new table and the index of the inserted entry. -/
def addPeer (now : Nat) (peers : List MeshPeer) (mac : List Nat) (rssi : Int)
    (hopCount : Nat) (isGatewayPeer : Bool) : List MeshPeer × Option Nat :=
  let peers1 := if MAX_PEERS ≤ peers.length then removeStalePeers now peers else peers
  if MAX_PEERS ≤ peers1.length then (peers1, none)
  else (peers1 ++ [⟨mac, rssi, now, hopCount, isGatewayPeer, true⟩], some peers1.length)

/-- The in-place update `peers[i].lastSeen = millis();
peers[i].hopCount = msg->hopCount;` performed by processMessage on a
known peer. -/
def touchPeerAt (now hop : Nat) : List MeshPeer → Nat → List MeshPeer
  | [], _ => []
  | p :: rest, 0 => { p with lastSeen := now, hopCount := hop } :: rest
  | p :: rest, Nat.succ i => p :: touchPeerAt now hop rest i

/-- findRoute: first routing entry whose destination equals `dest`,
or none (the C function returns nullptr). -/
def findRoute (dest : List Nat) : List RouteEntry → Option RouteEntry
  | [] => none
  | r :: rest => if r.destination = dest then some r else findRoute dest rest

/-- The in-place mutation updateRoute performs on an existing entry:
overwrite nextHop and hopCount only when the new hop count is strictly
smaller, and always refresh lastUpdated. -/
def touchRoute (r : RouteEntry) (nextHop : List Nat) (hopCount now : Nat) : RouteEntry :=
  { r with
    nextHop := if hopCount < r.hopCount then nextHop else r.nextHop,
    hopCount := if hopCount < r.hopCount then hopCount else r.hopCount,
    lastUpdated := now }

/-- Walks the routing table looking for `dest`; `some` of the rewritten
table when an entry was found (modelling the in-place mutation of the
existing entry), `none` when no entry matches. -/
def updateRouteGo (dest nextHop : List Nat) (hopCount now : Nat) :
    List RouteEntry → Option (List RouteEntry)
  | [] => none
  | r :: rest =>
    if r.destination = dest then
      some (touchRoute r nextHop hopCount now :: rest)
    else
      (updateRouteGo dest nextHop hopCount now rest).map (r :: ·)

/-- updateRoute: mutate the existing entry for `dest` if there is one;
otherwise append a new entry when the table has room, else drop. -/
def updateRoute (dest nextHop : List Nat) (hopCount now : Nat)
    (tbl : List RouteEntry) : List RouteEntry :=
  match updateRouteGo dest nextHop hopCount now tbl with
  | some tbl1 => tbl1
  | none =>
    if tbl.length < MAX_PEERS then tbl ++ [⟨dest, nextHop, hopCount, now⟩]
    else tbl

/-- sendDiscovery: broadcast a DISCOVERY with hop count 0 and payload
equal to our gateway flag; the sequence counter is post-incremented. -/
def sendDiscovery (st : MeshState) : MeshState × List OutAction :=
  let msg : MeshMessage :=
    { type := MSG_DISCOVERY, srcMac := st.myMac, dstMac := broadcastMac,
      hopCount := 0, sequenceNum := st.sequenceNumber % 65536,
      dataLen := 1, data := [if st.isGateway then 1 else 0] }
  ({ st with sequenceNumber := (st.sequenceNumber + 1) % 65536 },
   [OutAction.broadcast msg])

/-- sendHeartbeat: broadcast a HEARTBEAT whose two payload bytes are the
peer count and the gateway flag. -/
def sendHeartbeat (st : MeshState) : MeshState × List OutAction :=
  let msg : MeshMessage :=
    { type := MSG_HEARTBEAT, srcMac := st.myMac, dstMac := broadcastMac,
      hopCount := 0, sequenceNum := st.sequenceNumber % 65536,
      dataLen := 2,
      data := [st.peers.length % 256, if st.isGateway then 1 else 0] }
  ({ st with sequenceNumber := (st.sequenceNumber + 1) % 65536 },
   [OutAction.broadcast msg])

/-- sendData: truncate the payload at 200 bytes, build a DATA frame with
hop count 0 addressed to `dest`, and hand it to `sendUnicast` addressed
to the routing entry's next hop when a route exists, or directly to
`dest` when none does. -/
def sendData (st : MeshState) (dest data : List Nat) (len : Nat) :
    MeshState × List OutAction :=
  let len1 := min len 200
  let nextHop :=
    match findRoute dest st.routingTable with
    | some r => r.nextHop
    | none => dest
  let msg : MeshMessage :=
    { type := MSG_DATA, srcMac := st.myMac, dstMac := dest, hopCount := 0,
      sequenceNum := st.sequenceNumber % 65536, dataLen := len1,
      data := data.take len1 }
  ({ st with sequenceNumber := (st.sequenceNumber + 1) % 65536 },
   [OutAction.unicast nextHop msg])

/-- handleDiscovery: when the incoming hop count is below 3, unicast a
DISCOVERY reply with hop count incremented; in every case refresh the
direct route to the source with hop count 1. -/
def handleDiscovery (st : MeshState) (now : Nat) (msg : MeshMessage) :
    MeshState × List OutAction :=
  let p : MeshState × List OutAction :=
    if msg.hopCount < 3 then
      let reply : MeshMessage :=
        { type := MSG_DISCOVERY, srcMac := st.myMac, dstMac := msg.srcMac,
          hopCount := (msg.hopCount + 1) % 256,
          sequenceNum := st.sequenceNumber % 65536,
          dataLen := 1, data := [if st.isGateway then 1 else 0] }
      ({ st with sequenceNumber := (st.sequenceNumber + 1) % 65536 },
       [OutAction.unicast msg.srcMac reply])
    else (st, [])
  ({ p.1 with routingTable := updateRoute msg.srcMac msg.srcMac 1 now p.1.routingTable },
   p.2)

/-- handleData: deliver to the application when addressed to us;
otherwise forward (incrementing the hop count) only while the received
hop count is below 5, unicast along a known route or broadcast. -/
def handleData (st : MeshState) (msg : MeshMessage) :
    MeshState × List OutAction :=
  if msg.dstMac = st.myMac then
    (st, [OutAction.deliver msg.srcMac msg.data msg.dataLen])
  else if msg.hopCount < 5 then
    let fwd := { msg with hopCount := (msg.hopCount + 1) % 256 }
    match findRoute msg.dstMac st.routingTable with
    | some r => (st, [OutAction.unicast r.nextHop fwd])
    | none => (st, [OutAction.broadcast fwd])
  else (st, [])

/-- handleRouteRequest: answer with a ROUTE_REPLY when we have a route
to the queried destination or are that destination; otherwise
rebroadcast with incremented hop count while below the hop limit. -/
def handleRouteRequest (st : MeshState) (msg : MeshMessage) :
    MeshState × List OutAction :=
  let dest := data6 msg.data
  let route := findRoute dest st.routingTable
  if route.isSome ∨ dest = st.myMac then
    let advertised :=
      match route with
      | some r => (r.hopCount + 1) % 256
      | none => 1
    let reply : MeshMessage :=
      { type := MSG_ROUTE_REPLY, srcMac := st.myMac, dstMac := msg.srcMac,
        hopCount := 0, sequenceNum := st.sequenceNumber % 65536,
        dataLen := 7, data := dest ++ [advertised] }
    ({ st with sequenceNumber := (st.sequenceNumber + 1) % 65536 },
     [OutAction.unicast msg.srcMac reply])
  else if msg.hopCount < 5 then
    (st, [OutAction.broadcast { msg with hopCount := (msg.hopCount + 1) % 256 }])
  else (st, [])

/-- handleRouteReply: record the advertised route (destination from the
first six payload bytes, hop count from payload byte 6, next hop the
replying node). -/
def handleRouteReply (st : MeshState) (now : Nat) (msg : MeshMessage) :
    MeshState × List OutAction :=
  ({ st with routingTable :=
      updateRoute (data6 msg.data) msg.srcMac (msg.data.getD 6 0) now st.routingTable },
   [])

/-- The peer-update step at the top of processMessage: touch a known
entry's lastSeen and hopCount, or insert a fresh entry with rssi -50 and
gateway flag taken from payload byte 0. -/
def peerUpdate (st : MeshState) (now : Nat) (msg : MeshMessage) : MeshState :=
  match findPeer msg.srcMac st.peers with
  | some i => { st with peers := touchPeerAt now msg.hopCount st.peers i }
  | none =>
    { st with peers :=
        (addPeer now st.peers msg.srcMac (-50) msg.hopCount (msg.data.getD 0 0 == 1)).1 }

/-- processMessage: drop frames from self, update the peer table, then
dispatch on the message type. -/
def processMessage (st : MeshState) (now : Nat) (msg : MeshMessage) :
    MeshState × List OutAction :=
  if msg.srcMac = st.myMac then (st, [])
  else
    let st1 := peerUpdate st now msg
    if msg.type = MSG_DISCOVERY then handleDiscovery st1 now msg
    else if msg.type = MSG_HEARTBEAT then (st1, [])
    else if msg.type = MSG_DATA then handleData st1 msg
    else if msg.type = MSG_ROUTE_REQUEST then handleRouteRequest st1 msg
    else if msg.type = MSG_ROUTE_REPLY then handleRouteReply st1 now msg
    else (st1, [])

/-- meshLoop: emit a heartbeat, refresh lastHeartbeat and evict stale
peers exactly when `now - lastHeartbeat` (uint32 arithmetic) is
strictly greater than HEARTBEAT_INTERVAL. -/
def meshLoop (st : MeshState) (now : Nat) : MeshState × List OutAction :=
  if HEARTBEAT_INTERVAL < sub32 now st.lastHeartbeat then
    let p := sendHeartbeat st
    ({ p.1 with lastHeartbeat := now, peers := removeStalePeers now p.1.peers },
     p.2)
  else (st, [])

/-- onDataRecv: reject buffers shorter than the 18-byte header
(`sizeof(MeshMessage) - 200`), otherwise memcpy the bytes into a
MeshMessage (little-endian host order, packed layout with no padding).
No further validation is performed. -/
def decodeFrame (bytes : List Nat) : Option MeshMessage :=
  if bytes.length < 18 then none
  else some
    { type := bytes.getD 0 0,
      srcMac := [bytes.getD 1 0, bytes.getD 2 0, bytes.getD 3 0,
                 bytes.getD 4 0, bytes.getD 5 0, bytes.getD 6 0],
      dstMac := [bytes.getD 7 0, bytes.getD 8 0, bytes.getD 9 0,
                 bytes.getD 10 0, bytes.getD 11 0, bytes.getD 12 0],
      hopCount := bytes.getD 13 0,
      sequenceNum := bytes.getD 14 0 + 256 * bytes.getD 15 0,
      dataLen := bytes.getD 16 0 + 256 * bytes.getD 17 0,
      data := bytes.drop 18 }

/-- The externally triggerable operations of the engine: a radio
reception, a tick of the main loop, an application send, an initial
discovery broadcast, and switching gateway mode. -/
inductive MeshOp where
  | recv (now : Nat) (msg : MeshMessage)
  | tick (now : Nat)
  | send (dest data : List Nat) (len : Nat)
  | discover
  | setGateway (b : Bool)
deriving DecidableEq, Repr

/-- One engine step, discarding the emitted actions. -/
def stepState (st : MeshState) : MeshOp → MeshState
  | MeshOp.recv now msg => (processMessage st now msg).1
  | MeshOp.tick now => (meshLoop st now).1
  | MeshOp.send dest data len => (sendData st dest data len).1
  | MeshOp.discover => (sendDiscovery st).1
  | MeshOp.setGateway b => { st with isGateway := b }

/-- The state right after initMesh: empty tables, zero counters. -/
def initState (mac : List Nat) : MeshState :=
  { myMac := mac, peers := [], routingTable := [], sequenceNumber := 0,
    isGateway := false, lastHeartbeat := 0 }

/-- The state reached from init by a sequence of operations. -/
def runOps (mac : List Nat) (ops : List MeshOp) : MeshState :=
  ops.foldl stepState (initState mac)

/-! Concrete addresses, frames and states used by counterexamples and
witnesses. -/

/-- A concrete own address. -/
def exMac : List Nat := [1, 2, 3, 4, 5, 6]

/-- A concrete neighbour address. -/
def exSrc : List Nat := [9, 9, 9, 9, 9, 9]

/-- A concrete destination address distinct from `exMac` and `exSrc`. -/
def exDst : List Nat := [8, 8, 8, 8, 8, 8]

/-- A DATA frame arriving with hop count 4, addressed past this node. -/
def exDataHop4 : MeshMessage :=
  { type := MSG_DATA, srcMac := exSrc, dstMac := exDst, hopCount := 4,
    sequenceNum := 0, dataLen := 1, data := [0] }

/-- The frame that forwarding `exDataHop4` emits. -/
def exDataHop5 : MeshMessage := { exDataHop4 with hopCount := 5 }

/-! Helper lemmas about the table operations. -/

theorem sentFrames_nil : sentFrames [] = [] := rfl

theorem sentFrames_unicast (d : List Nat) (m : MeshMessage) (rest : List OutAction) :
    sentFrames (OutAction.unicast d m :: rest) = m :: sentFrames rest := rfl

theorem sentFrames_broadcast (m : MeshMessage) (rest : List OutAction) :
    sentFrames (OutAction.broadcast m :: rest) = m :: sentFrames rest := rfl

theorem sentFrames_deliver (s d : List Nat) (n : Nat) (rest : List OutAction) :
    sentFrames (OutAction.deliver s d n :: rest) = sentFrames rest := rfl

theorem handleDiscovery_sent_hop (st : MeshState) (now : Nat) (msg : MeshMessage)
    (f : MeshMessage) (hf : f ∈ sentFrames (handleDiscovery st now msg).2) :
    f.hopCount ≤ 5 := by
  by_cases h3 : msg.hopCount < 3
  · simp only [handleDiscovery, h3, if_true, sentFrames, List.mem_singleton] at hf
    subst hf
    simp only
    omega
  · simp only [handleDiscovery, h3, if_false, sentFrames, List.not_mem_nil] at hf

theorem handleData_sent_hop (st : MeshState) (msg : MeshMessage)
    (f : MeshMessage) (hf : f ∈ sentFrames (handleData st msg).2) :
    f.hopCount ≤ 5 := by
  by_cases hdst : msg.dstMac = st.myMac
  · simp only [handleData, hdst, if_true, sentFrames, List.not_mem_nil] at hf
  · by_cases h5 : msg.hopCount < 5
    · rcases hr : findRoute msg.dstMac st.routingTable with _ | r <;>
        · simp only [handleData, hdst, if_false, h5, if_true, hr, sentFrames,
            List.mem_singleton] at hf
          subst hf
          simp only
          omega
    · simp only [handleData, hdst, if_false, h5, sentFrames, List.not_mem_nil] at hf

theorem handleRouteRequest_sent_hop (st : MeshState) (msg : MeshMessage)
    (f : MeshMessage) (hf : f ∈ sentFrames (handleRouteRequest st msg).2) :
    f.hopCount ≤ 5 := by
  by_cases hrep : (findRoute (data6 msg.data) st.routingTable).isSome ∨
      data6 msg.data = st.myMac
  · simp only [handleRouteRequest, hrep, if_true, sentFrames, List.mem_singleton] at hf
    subst hf
    simp only
    omega
  · by_cases h5 : msg.hopCount < 5
    · simp only [handleRouteRequest, hrep, if_false, h5, if_true, sentFrames,
        List.mem_singleton] at hf
      subst hf
      simp only
      omega
    · simp only [handleRouteRequest, hrep, if_false, h5, sentFrames,
        List.not_mem_nil] at hf

theorem handleRouteReply_sent (st : MeshState) (now : Nat) (msg : MeshMessage) :
    sentFrames (handleRouteReply st now msg).2 = [] := rfl

/-! Claim C1. -/

/-- C1 counterexample: processing a DATA frame received with hop count 4
(addressed past this node, no route known) hands the link driver a frame
with hop count 5, which is not `< MAX_HOP_COUNT`.  This refutes the
claim that no received frame produces a sent frame with
`hop_count ≥ 5`. -/
theorem forwardData_hop4_emits_hop5 :
    (sentFrames (processMessage (initState exMac) 0 exDataHop4).2).map
      MeshMessage.hopCount = [5] := by decide

/-- C1 amended: processing a received frame never hands the link driver
a frame with hop count strictly greater than MAX_HOP_COUNT = 5; a DATA
or ROUTE_REQUEST frame is forwarded only when it arrived with hop count
strictly below 5, so the emitted hop count is at most 5. -/
theorem processMessage_sent_hopCount_le_five (st : MeshState) (now : Nat)
    (msg : MeshMessage) (f : MeshMessage)
    (hf : f ∈ sentFrames (processMessage st now msg).2) :
    f.hopCount ≤ 5 := by
  by_cases hself : msg.srcMac = st.myMac
  · simp only [processMessage, hself, if_true, sentFrames, List.not_mem_nil] at hf
  · simp only [processMessage, hself, if_false] at hf
    by_cases h1 : msg.type = MSG_DISCOVERY
    · rw [if_pos h1] at hf
      exact handleDiscovery_sent_hop _ _ _ _ hf
    · rw [if_neg h1] at hf
      by_cases h2 : msg.type = MSG_HEARTBEAT
      · rw [if_pos h2] at hf
        simp only [sentFrames, List.not_mem_nil] at hf
      · rw [if_neg h2] at hf
        by_cases h3 : msg.type = MSG_DATA
        · rw [if_pos h3] at hf
          exact handleData_sent_hop _ _ _ hf
        · rw [if_neg h3] at hf
          by_cases h4 : msg.type = MSG_ROUTE_REQUEST
          · rw [if_pos h4] at hf
            exact handleRouteRequest_sent_hop _ _ _ hf
          · rw [if_neg h4] at hf
            by_cases h5 : msg.type = MSG_ROUTE_REPLY
            · rw [if_pos h5, handleRouteReply_sent] at hf
              simp only [List.not_mem_nil] at hf
            · rw [if_neg h5] at hf
              simp only [sentFrames, List.not_mem_nil] at hf

/-- C1 amended witness: at the concrete forwarding scenario the emitted
frame indeed has hop count at most 5. -/
theorem processMessage_sent_hopCount_le_five_witness :
    MeshMessage.hopCount exDataHop5 ≤ 5 :=
  processMessage_sent_hopCount_le_five (initState exMac) 0 exDataHop4 exDataHop5
    (by decide)

/-! Claim C8. -/

/-- C8: a frame whose source is our own address is discarded
unconditionally — no state change and no outgoing action. -/
theorem processMessage_self_quiescent (st : MeshState) (now : Nat)
    (msg : MeshMessage) (hself : msg.srcMac = st.myMac) :
    processMessage st now msg = (st, []) := by
  simp only [processMessage, hself, if_true]

/-- C8 witness: a concrete self-sourced frame is dropped with no
effect. -/
theorem processMessage_self_quiescent_witness :
    processMessage (initState exMac) 7
      { exDataHop4 with srcMac := exMac } = (initState exMac, []) :=
  processMessage_self_quiescent (initState exMac) 7
    { exDataHop4 with srcMac := exMac } (by decide)

/-! Claim C2. -/

/-- C2 counterexample: with an empty routing table (no entry for the
destination), `sendData` hands the link driver a unicast addressed
directly to the destination, not a broadcast — so origination does not
select the outgoing address the way forwarding does (forwarding
broadcasts when no route is known). -/
theorem sendData_without_route_unicasts :
    findRoute exDst (initState exMac).routingTable = none ∧
    (sendData (initState exMac) exDst [1, 2] 2).2 =
      [OutAction.unicast exDst
        { type := MSG_DATA, srcMac := exMac, dstMac := exDst, hopCount := 0,
          sequenceNum := 0, dataLen := 2, data := [1, 2] }] := by
  constructor
  · decide
  · decide

/-- C2 amended: `sendData` unicasts the frame to the routing entry's
next hop when a route to the destination exists, and otherwise unicasts
it directly to the destination address (it never broadcasts). -/
theorem sendData_route_selection (st : MeshState) (dest data : List Nat)
    (len : Nat) :
    (∀ r, findRoute dest st.routingTable = some r →
      ∃ m, (sendData st dest data len).2 = [OutAction.unicast r.nextHop m]) ∧
    (findRoute dest st.routingTable = none →
      ∃ m, (sendData st dest data len).2 = [OutAction.unicast dest m]) := by
  constructor
  · intro r hr
    refine ⟨{ type := MSG_DATA, srcMac := st.myMac, dstMac := dest,
              hopCount := 0, sequenceNum := st.sequenceNumber % 65536,
              dataLen := min len 200, data := data.take (min len 200) }, ?_⟩
    simp only [sendData, hr]
  · intro hr
    refine ⟨{ type := MSG_DATA, srcMac := st.myMac, dstMac := dest,
              hopCount := 0, sequenceNum := st.sequenceNumber % 65536,
              dataLen := min len 200, data := data.take (min len 200) }, ?_⟩
    simp only [sendData, hr]

/-- C2 amended witness: both cases at concrete inputs — a state holding
a route for the destination unicasts to its next hop; the empty state
unicasts to the destination itself. -/
theorem sendData_route_selection_witness :
    (∃ m, (sendData
        { initState exMac with
            routingTable := [⟨exDst, exSrc, 2, 0⟩] } exDst [1, 2] 2).2 =
      [OutAction.unicast exSrc m]) ∧
    (∃ m, (sendData (initState exMac) exDst [1, 2] 2).2 =
      [OutAction.unicast exDst m]) :=
  ⟨(sendData_route_selection
      { initState exMac with routingTable := [⟨exDst, exSrc, 2, 0⟩] }
      exDst [1, 2] 2).1 ⟨exDst, exSrc, 2, 0⟩ (by decide),
   (sendData_route_selection (initState exMac) exDst [1, 2] 2).2 (by decide)⟩

/-! Claim C4. -/

/-- C4 counterexample: an 18-byte buffer (nothing after the header)
whose declared data_len field is 100 is accepted and decoded rather than
rejected — the receive path checks only the minimum length, never
data_len against the remaining bytes. -/
theorem decodeFrame_accepts_bad_dataLen :
    ([3, 9, 9, 9, 9, 9, 9, 8, 8, 8, 8, 8, 8, 0, 0, 0, 100, 0] : List Nat).length
        = 18 ∧
    (decodeFrame [3, 9, 9, 9, 9, 9, 9, 8, 8, 8, 8, 8, 8, 0, 0, 0, 100, 0]).map
        MeshMessage.dataLen = some 100 := by
  constructor
  · decide
  · decide

/-- C4 amended: decoding rejects exactly the buffers shorter than the
18-byte header; a declared data_len exceeding the bytes remaining after
the header is not checked and such buffers are accepted. -/
theorem decodeFrame_isNone_iff_short (bytes : List Nat) :
    (decodeFrame bytes).isNone = decide (bytes.length < 18) := by
  unfold decodeFrame
  by_cases h : bytes.length < 18 <;> simp [h]

/-! Claim C7. -/

/-- C7 counterexample: when the elapsed time since the last heartbeat is
exactly HEARTBEAT_INTERVAL (30000 ms), the periodic driver does nothing
— no heartbeat is broadcast, no state is updated — because the code
tests `now - lastHeartbeat > HEARTBEAT_INTERVAL` strictly. -/
theorem meshLoop_skips_exact_interval :
    sub32 30000 (initState exMac).lastHeartbeat = HEARTBEAT_INTERVAL ∧
    meshLoop (initState exMac) 30000 = (initState exMac, []) := by
  constructor
  · decide
  · decide

/-- C7 amended: the periodic driver broadcasts a HEARTBEAT whose payload
is the peer count followed by the gateway flag, updates lastHeartbeat,
and evicts stale peers if and only if the elapsed time
`now - lastHeartbeat` (uint32 arithmetic) is strictly greater than
HEARTBEAT_INTERVAL; at exactly HEARTBEAT_INTERVAL nothing happens. -/
theorem meshLoop_heartbeat_iff_strict (st : MeshState) (now : Nat) :
    (HEARTBEAT_INTERVAL < sub32 now st.lastHeartbeat →
      meshLoop st now =
        ({ st with
           sequenceNumber := (st.sequenceNumber + 1) % 65536,
           lastHeartbeat := now,
           peers := removeStalePeers now st.peers },
         [OutAction.broadcast
           { type := MSG_HEARTBEAT, srcMac := st.myMac, dstMac := broadcastMac,
             hopCount := 0, sequenceNum := st.sequenceNumber % 65536,
             dataLen := 2,
             data := [st.peers.length % 256, if st.isGateway then 1 else 0] }])) ∧
    (¬ HEARTBEAT_INTERVAL < sub32 now st.lastHeartbeat →
      meshLoop st now = (st, [])) := by
  constructor
  · intro h
    simp only [meshLoop, h, if_true, sendHeartbeat]
  · intro h
    simp only [meshLoop, h, if_false]

/-- C7 amended witness: with elapsed time 30001 the heartbeat fires with
payload [0, 0]; with elapsed time 30000 nothing happens. -/
theorem meshLoop_heartbeat_iff_strict_witness :
    meshLoop (initState exMac) 30001 =
      ({ initState exMac with
         sequenceNumber := 1,
         lastHeartbeat := 30001,
         peers := [] },
       [OutAction.broadcast
         { type := MSG_HEARTBEAT, srcMac := exMac, dstMac := broadcastMac,
           hopCount := 0, sequenceNum := 0, dataLen := 2, data := [0, 0] }]) ∧
    meshLoop (initState exMac) 30000 = (initState exMac, []) :=
  ⟨(meshLoop_heartbeat_iff_strict (initState exMac) 30001).1 (by decide),
   (meshLoop_heartbeat_iff_strict (initState exMac) 30000).2 (by decide)⟩

/-! Claim C3. -/

theorem handleDiscovery_peers (st : MeshState) (now : Nat) (msg : MeshMessage) :
    (handleDiscovery st now msg).1.peers = st.peers := by
  unfold handleDiscovery
  by_cases h : msg.hopCount < 3 <;> simp [h]

theorem handleData_state (st : MeshState) (msg : MeshMessage) :
    (handleData st msg).1 = st := by
  unfold handleData
  by_cases h : msg.dstMac = st.myMac
  · simp [h]
  · by_cases h5 : msg.hopCount < 5
    · rcases hr : findRoute msg.dstMac st.routingTable with _ | r <;> simp [h, h5, hr]
    · simp [h, h5]

theorem handleRouteRequest_peers (st : MeshState) (msg : MeshMessage) :
    (handleRouteRequest st msg).1.peers = st.peers := by
  unfold handleRouteRequest
  by_cases h : (findRoute (data6 msg.data) st.routingTable).isSome ∨
      data6 msg.data = st.myMac
  · simp [h]
  · by_cases h5 : msg.hopCount < 5 <;> simp [h, h5]

theorem handleRouteReply_peers (st : MeshState) (now : Nat) (msg : MeshMessage) :
    (handleRouteReply st now msg).1.peers = st.peers := rfl

/-- The peer table after a full processing step is exactly the peer
table after the peer-update step: the dispatch phase never mutates
peers. -/
theorem processMessage_peers (st : MeshState) (now : Nat) (msg : MeshMessage)
    (hsrc : msg.srcMac ≠ st.myMac) :
    (processMessage st now msg).1.peers = (peerUpdate st now msg).peers := by
  simp only [processMessage, hsrc, if_false]
  by_cases h1 : msg.type = MSG_DISCOVERY
  · rw [if_pos h1, handleDiscovery_peers]
  · rw [if_neg h1]
    by_cases h2 : msg.type = MSG_HEARTBEAT
    · rw [if_pos h2]
    · rw [if_neg h2]
      by_cases h3 : msg.type = MSG_DATA
      · rw [if_pos h3, handleData_state]
      · rw [if_neg h3]
        by_cases h4 : msg.type = MSG_ROUTE_REQUEST
        · rw [if_pos h4, handleRouteRequest_peers]
        · rw [if_neg h4]
          by_cases h5 : msg.type = MSG_ROUTE_REPLY
          · rw [if_pos h5, handleRouteReply_peers]
          · rw [if_neg h5]

theorem touchPeerAt_eq_set (now hop : Nat) :
    ∀ (l : List MeshPeer) (i : Nat) (p : MeshPeer), l.get? i = some p →
      touchPeerAt now hop l i = l.set i { p with lastSeen := now, hopCount := hop }
  | [], i, p, h => by simp at h
  | q :: rest, 0, p, h => by
    simp only [List.get?] at h
    injection h with h
    subst h
    rfl
  | q :: rest, Nat.succ i, p, h => by
    simp only [List.get?] at h
    simp only [touchPeerAt, List.set, touchPeerAt_eq_set now hop rest i p h]

/-- A HEARTBEAT frame (not a DISCOVERY) from an unknown source whose
first payload byte is 1. -/
def exHeartbeatGw : MeshMessage :=
  { type := MSG_HEARTBEAT, srcMac := exSrc, dstMac := broadcastMac,
    hopCount := 0, sequenceNum := 0, dataLen := 1, data := [1] }

/-- A DISCOVERY frame from `exSrc` advertising no gateway. -/
def exDiscovery0 : MeshMessage :=
  { type := MSG_DISCOVERY, srcMac := exSrc, dstMac := broadcastMac,
    hopCount := 0, sequenceNum := 0, dataLen := 1, data := [0] }

/-- A DISCOVERY frame from `exSrc` advertising a gateway. -/
def exDiscovery1 : MeshMessage :=
  { type := MSG_DISCOVERY, srcMac := exSrc, dstMac := broadcastMac,
    hopCount := 0, sequenceNum := 1, dataLen := 1, data := [1] }

/-- C3 counterexample: (i) a HEARTBEAT — not a DISCOVERY — from an
unknown source with payload byte 0 equal to 1 inserts the peer with
`is_gateway = true`, so `data[0]` is used as the gateway hint for
non-DISCOVERY types too; (ii) when the entry already exists, a
DISCOVERY advertising `data[0] = 1` leaves the stored `is_gateway`
at false, so `is_gateway` is not updated on existing entries. -/
theorem peerUpdate_gateway_hint_any_type :
    (processMessage (initState exMac) 0 exHeartbeatGw).1.peers.map
        MeshPeer.isGateway = [true] ∧
    (processMessage (processMessage (initState exMac) 0 exDiscovery0).1 1
        exDiscovery1).1.peers.map MeshPeer.isGateway = [false] := by
  constructor
  · decide
  · decide

/-- C3 amended: for every received frame from a foreign source, the
peer-update step inserts an unknown source with the gateway hint taken
from `data[0]` regardless of the frame type; when the entry already
exists only `last_seen` and `hop_count` are updated and the stored
`is_gateway` (and `rssi`) are preserved. -/
theorem processMessage_peer_update_spec (st : MeshState) (now : Nat)
    (msg : MeshMessage) (hsrc : msg.srcMac ≠ st.myMac) :
    (findPeer msg.srcMac st.peers = none →
      (processMessage st now msg).1.peers =
        (addPeer now st.peers msg.srcMac (-50) msg.hopCount
          (msg.data.getD 0 0 == 1)).1) ∧
    (∀ i p, findPeer msg.srcMac st.peers = some i → st.peers.get? i = some p →
      (processMessage st now msg).1.peers =
        st.peers.set i { p with lastSeen := now, hopCount := msg.hopCount }) := by
  constructor
  · intro hnone
    rw [processMessage_peers st now msg hsrc]
    simp only [peerUpdate, hnone]
  · intro i p hi hp
    rw [processMessage_peers st now msg hsrc]
    simp only [peerUpdate, hi]
    exact touchPeerAt_eq_set now msg.hopCount st.peers i p hp

/-- A peer entry for `exSrc` as first inserted (not a gateway). -/
def exPeer : MeshPeer :=
  { mac := exSrc, rssi := -50, lastSeen := 0, hopCount := 0,
    isGateway := false, isActive := true }

/-- A state that already knows `exSrc` as a peer. -/
def exStWithPeer : MeshState := { initState exMac with peers := [exPeer] }

/-- C3 amended witness: a fresh HEARTBEAT inserts via addPeer with the
gateway hint from `data[0]`; on the state already holding the peer, a
gateway-advertising DISCOVERY only refreshes `last_seen` and
`hop_count`. -/
theorem processMessage_peer_update_spec_witness :
    (processMessage (initState exMac) 0 exHeartbeatGw).1.peers =
      (addPeer 0 (initState exMac).peers exSrc (-50) exHeartbeatGw.hopCount
        (exHeartbeatGw.data.getD 0 0 == 1)).1 ∧
    (processMessage exStWithPeer 5 exDiscovery1).1.peers =
      exStWithPeer.peers.set 0
        { exPeer with lastSeen := 5, hopCount := exDiscovery1.hopCount } :=
  ⟨(processMessage_peer_update_spec (initState exMac) 0 exHeartbeatGw
      (by decide)).1 (by decide),
   (processMessage_peer_update_spec exStWithPeer 5 exDiscovery1
      (by decide)).2 0 exPeer (by decide) (by decide)⟩

/-! Claim C5. -/

theorem updateRouteGo_spec (d nh : List Nat) (hc now : Nat) :
    ∀ (tbl : List RouteEntry) (e : RouteEntry), findRoute d tbl = some e →
      ∃ tbl1, updateRouteGo d nh hc now tbl = some tbl1 ∧
        findRoute d tbl1 = some (touchRoute e nh hc now)
  | [], e, he => by simp [findRoute] at he
  | r :: rest, e, he => by
    by_cases hd : r.destination = d
    · rw [findRoute, if_pos hd] at he
      injection he with he
      subst he
      refine ⟨touchRoute r nh hc now :: rest, ?_, ?_⟩
      · rw [updateRouteGo, if_pos hd]
      · rw [findRoute, if_pos]
        exact hd
    · rw [findRoute, if_neg hd] at he
      obtain ⟨tbl1, h1, h2⟩ := updateRouteGo_spec d nh hc now rest e he
      refine ⟨r :: tbl1, ?_, ?_⟩
      · rw [updateRouteGo, if_neg hd, h1]
        rfl
      · rw [findRoute, if_neg hd]
        exact h2

theorem updateRouteGo_none (d nh : List Nat) (hc now : Nat) :
    ∀ tbl : List RouteEntry, findRoute d tbl = none →
      updateRouteGo d nh hc now tbl = none
  | [], _ => rfl
  | r :: rest, he => by
    by_cases hd : r.destination = d
    · rw [findRoute, if_pos hd] at he
      exact absurd he (by simp)
    · rw [findRoute, if_neg hd] at he
      rw [updateRouteGo, if_neg hd, updateRouteGo_none d nh hc now rest he]
      rfl

theorem findRoute_append_single (d : List Nat) (e : RouteEntry) :
    ∀ tbl : List RouteEntry, findRoute d tbl = none →
      findRoute d (tbl ++ [e]) = findRoute d [e]
  | [], _ => rfl
  | r :: rest, he => by
    by_cases hd : r.destination = d
    · rw [findRoute, if_pos hd] at he
      exact absurd he (by simp)
    · rw [findRoute, if_neg hd] at he
      rw [List.cons_append, findRoute, if_neg hd]
      exact findRoute_append_single d e rest he

/-- Looking up `d` after updating an existing entry for `d` finds the
touched entry. -/
theorem findRoute_updateRoute_some (d nh : List Nat) (hc now : Nat)
    (tbl : List RouteEntry) (e : RouteEntry) (he : findRoute d tbl = some e) :
    findRoute d (updateRoute d nh hc now tbl) = some (touchRoute e nh hc now) := by
  obtain ⟨tbl1, h1, h2⟩ := updateRouteGo_spec d nh hc now tbl e he
  rw [updateRoute, h1]
  exact h2

/-- Looking up `d` after inserting a fresh entry for `d` (table not
full) finds exactly the inserted entry. -/
theorem findRoute_updateRoute_none (d nh : List Nat) (hc now : Nat)
    (tbl : List RouteEntry) (he : findRoute d tbl = none)
    (hlen : tbl.length < MAX_PEERS) :
    findRoute d (updateRoute d nh hc now tbl) = some ⟨d, nh, hc, now⟩ := by
  rw [updateRoute, updateRouteGo_none d nh hc now tbl he, if_pos hlen,
    findRoute_append_single d _ tbl he]
  rw [findRoute, if_pos rfl]

/-- C5: an update against an existing entry overwrites `next_hop` and
`hop_count` only when the new hop count is strictly smaller, and always
sets `last_updated := now`; consequently after inserting `(d, nh1, h1)`
into a table without an entry for `d` and then updating with
`(d, nh2, h2)` where `h1 ≤ h2`, the stored next hop is still `nh1`. -/
theorem updateRoute_strict_improvement (tbl : List RouteEntry)
    (d nh2 : List Nat) (h2 now2 : Nat) :
    (∀ e, findRoute d tbl = some e →
      findRoute d (updateRoute d nh2 h2 now2 tbl) =
        some { destination := e.destination,
               nextHop := if h2 < e.hopCount then nh2 else e.nextHop,
               hopCount := if h2 < e.hopCount then h2 else e.hopCount,
               lastUpdated := now2 }) ∧
    (∀ nh1 h1 now1, findRoute d tbl = none → tbl.length < MAX_PEERS →
      h1 ≤ h2 →
      findRoute d (updateRoute d nh2 h2 now2 (updateRoute d nh1 h1 now1 tbl)) =
        some ⟨d, nh1, h1, now2⟩) := by
  constructor
  · intro e he
    exact findRoute_updateRoute_some d nh2 h2 now2 tbl e he
  · intro nh1 h1 now1 hnone hlen hle
    have hfirst := findRoute_updateRoute_none d nh1 h1 now1 tbl hnone hlen
    have hsecond := findRoute_updateRoute_some d nh2 h2 now2 _ _ hfirst
    rw [hsecond]
    have hnot : ¬ h2 < h1 := by omega
    simp [touchRoute, hnot]

/-- C5 witness: both conjuncts at concrete inputs — updating the
singleton table holding `(exDst, exSrc, 2)` with hop count 3 keeps
`exSrc`; and the two-update sequence from the empty table stores
`nh1 = exSrc`. -/
theorem updateRoute_strict_improvement_witness :
    findRoute exDst (updateRoute exDst exMac 3 5 [⟨exDst, exSrc, 2, 4⟩]) =
      some { destination := exDst, nextHop := exSrc, hopCount := 2,
             lastUpdated := 5 } ∧
    findRoute exDst (updateRoute exDst exMac 3 5 (updateRoute exDst exSrc 2 4 [])) =
      some ⟨exDst, exSrc, 2, 5⟩ :=
  ⟨(updateRoute_strict_improvement [⟨exDst, exSrc, 2, 4⟩] exDst exMac 3 5).1
      ⟨exDst, exSrc, 2, 4⟩ (by decide),
   (updateRoute_strict_improvement [] exDst exMac 3 5).2 exSrc 2 4
      (by decide) (by decide) (by decide)⟩

/-! Claim C6. -/

theorem removeStalePeers_eq_filter (now : Nat) :
    ∀ l : List MeshPeer, removeStalePeers now l =
      l.filter (fun p => decide (sub32 now p.lastSeen < PEER_TIMEOUT))
  | [] => rfl
  | p :: rest => by
    by_cases h : sub32 now p.lastSeen < PEER_TIMEOUT <;>
      simp [removeStalePeers, h, List.filter_cons,
        removeStalePeers_eq_filter now rest]

/-- C6: eviction keeps exactly the entries whose uint32 age
`now - last_seen` is below PEER_TIMEOUT (equivalently, removes exactly
those at least PEER_TIMEOUT old), preserves the relative order of the
survivors (the result is a sublist of the input), and afterwards every
surviving entry is younger than PEER_TIMEOUT. -/
theorem removeStalePeers_spec (now : Nat) (l : List MeshPeer) :
    removeStalePeers now l =
      l.filter (fun p => decide (sub32 now p.lastSeen < PEER_TIMEOUT)) ∧
    (removeStalePeers now l).Sublist l ∧
    ∀ p ∈ removeStalePeers now l, sub32 now p.lastSeen < PEER_TIMEOUT := by
  refine ⟨removeStalePeers_eq_filter now l, ?_, ?_⟩
  · rw [removeStalePeers_eq_filter now l]
    exact List.filter_sublist l
  · intro p hp
    rw [removeStalePeers_eq_filter now l] at hp
    simpa using (List.mem_filter.mp hp).2

/-- C6 witness: at time 130000 a peer last seen at time 120000 survives
eviction from a table that also held a stale peer, and the theorem
certifies its age is below PEER_TIMEOUT. -/
theorem removeStalePeers_spec_witness :
    sub32 130000 120000 < PEER_TIMEOUT :=
  (removeStalePeers_spec 130000
      [{ exPeer with lastSeen := 0 }, { exPeer with lastSeen := 120000 }]).2.2
    { exPeer with lastSeen := 120000 } (by decide)

/-! Claim C9. -/

theorem touchPeerAt_length (now hop : Nat) :
    ∀ (l : List MeshPeer) (i : Nat), (touchPeerAt now hop l i).length = l.length
  | [], _ => rfl
  | _ :: _, 0 => rfl
  | p :: rest, Nat.succ i => by
    simp [touchPeerAt, touchPeerAt_length now hop rest i]

theorem removeStalePeers_length_le (now : Nat) (l : List MeshPeer) :
    (removeStalePeers now l).length ≤ l.length := by
  rw [removeStalePeers_eq_filter]
  exact List.length_filter_le _ l

theorem addPeer_length (now : Nat) (l : List MeshPeer) (mac : List Nat)
    (rssi : Int) (hop : Nat) (gw : Bool) (h : l.length ≤ MAX_PEERS) :
    ((addPeer now l mac rssi hop gw).1).length ≤ MAX_PEERS := by
  have hrem := removeStalePeers_length_le now l
  simp only [addPeer]
  by_cases h1 : MAX_PEERS ≤ l.length
  · simp only [h1, if_true]
    by_cases h3 : MAX_PEERS ≤ (removeStalePeers now l).length
    · simp only [h3, if_true]
      omega
    · simp only [h3, if_false, List.length_append, List.length_singleton]
      omega
  · simp only [h1, if_false]
    by_cases h3 : MAX_PEERS ≤ l.length
    · exact absurd h3 h1
    · simp only [h3, if_false, List.length_append, List.length_singleton]
      omega

theorem peerUpdate_peers_len (st : MeshState) (now : Nat) (msg : MeshMessage)
    (h : st.peers.length ≤ MAX_PEERS) :
    (peerUpdate st now msg).peers.length ≤ MAX_PEERS := by
  unfold peerUpdate
  rcases hfp : findPeer msg.srcMac st.peers with _ | i
  · simp only
    exact addPeer_length now st.peers msg.srcMac (-50) msg.hopCount
      (msg.data.getD 0 0 == 1) h
  · simp only
    rw [touchPeerAt_length]
    exact h

theorem peerUpdate_routing (st : MeshState) (now : Nat) (msg : MeshMessage) :
    (peerUpdate st now msg).routingTable = st.routingTable := by
  unfold peerUpdate
  rcases hfp : findPeer msg.srcMac st.peers with _ | i <;> simp only

theorem updateRouteGo_length (dest nextHop : List Nat) (hc now : Nat) :
    ∀ (tbl tbl1 : List RouteEntry),
      updateRouteGo dest nextHop hc now tbl = some tbl1 →
      tbl1.length = tbl.length
  | [], tbl1, h => by simp [updateRouteGo] at h
  | r :: rest, tbl1, h => by
    by_cases hd : r.destination = dest
    · rw [updateRouteGo, if_pos hd] at h
      injection h with h
      subst h
      rfl
    · rw [updateRouteGo, if_neg hd] at h
      rcases hgo : updateRouteGo dest nextHop hc now rest with _ | t
      · rw [hgo] at h
        simp at h
      · rw [hgo] at h
        injection h with h
        subst h
        simp [updateRouteGo_length dest nextHop hc now rest t hgo]

theorem updateRoute_length (dest nextHop : List Nat) (hc now : Nat)
    (tbl : List RouteEntry) (h : tbl.length ≤ MAX_PEERS) :
    (updateRoute dest nextHop hc now tbl).length ≤ MAX_PEERS := by
  unfold updateRoute
  rcases hgo : updateRouteGo dest nextHop hc now tbl with _ | t
  · by_cases hl : tbl.length < MAX_PEERS
    · simp only [hl, if_true, List.length_append, List.length_singleton]
      omega
    · simp only [hl, if_false]
      exact h
  · rw [updateRouteGo_length dest nextHop hc now tbl t hgo]
    exact h

theorem handleDiscovery_routing (st : MeshState) (now : Nat) (msg : MeshMessage) :
    (handleDiscovery st now msg).1.routingTable =
      updateRoute msg.srcMac msg.srcMac 1 now st.routingTable := by
  unfold handleDiscovery
  by_cases h : msg.hopCount < 3 <;> simp [h]

theorem handleRouteRequest_routing (st : MeshState) (msg : MeshMessage) :
    (handleRouteRequest st msg).1.routingTable = st.routingTable := by
  unfold handleRouteRequest
  by_cases h : (findRoute (data6 msg.data) st.routingTable).isSome ∨
      data6 msg.data = st.myMac
  · simp [h]
  · by_cases h5 : msg.hopCount < 5 <;> simp [h, h5]

theorem handleRouteReply_routing (st : MeshState) (now : Nat) (msg : MeshMessage) :
    (handleRouteReply st now msg).1.routingTable =
      updateRoute (data6 msg.data) msg.srcMac (msg.data.getD 6 0) now
        st.routingTable := rfl

theorem processMessage_routing_len (st : MeshState) (now : Nat)
    (msg : MeshMessage) (h2 : st.routingTable.length ≤ MAX_PEERS) :
    (processMessage st now msg).1.routingTable.length ≤ MAX_PEERS := by
  by_cases hs : msg.srcMac = st.myMac
  · simp only [processMessage, hs, if_true]
    exact h2
  · have hpu : (peerUpdate st now msg).routingTable = st.routingTable :=
      peerUpdate_routing st now msg
    simp only [processMessage, hs, if_false]
    by_cases h1 : msg.type = MSG_DISCOVERY
    · rw [if_pos h1, handleDiscovery_routing, hpu]
      exact updateRoute_length _ _ _ _ _ h2
    · rw [if_neg h1]
      by_cases hb : msg.type = MSG_HEARTBEAT
      · rw [if_pos hb]
        rw [hpu] at *
        exact h2
      · rw [if_neg hb]
        by_cases h3 : msg.type = MSG_DATA
        · rw [if_pos h3, handleData_state, hpu]
          exact h2
        · rw [if_neg h3]
          by_cases h4 : msg.type = MSG_ROUTE_REQUEST
          · rw [if_pos h4, handleRouteRequest_routing, hpu]
            exact h2
          · rw [if_neg h4]
            by_cases h5 : msg.type = MSG_ROUTE_REPLY
            · rw [if_pos h5, handleRouteReply_routing, hpu]
              exact updateRoute_length _ _ _ _ _ h2
            · rw [if_neg h5]
              rw [hpu] at *
              exact h2

theorem processMessage_bounded (st : MeshState) (now : Nat) (msg : MeshMessage)
    (h1 : st.peers.length ≤ MAX_PEERS) (h2 : st.routingTable.length ≤ MAX_PEERS) :
    (processMessage st now msg).1.peers.length ≤ MAX_PEERS ∧
    (processMessage st now msg).1.routingTable.length ≤ MAX_PEERS := by
  refine ⟨?_, processMessage_routing_len st now msg h2⟩
  by_cases hs : msg.srcMac = st.myMac
  · simp only [processMessage, hs, if_true]
    exact h1
  · rw [processMessage_peers st now msg hs]
    exact peerUpdate_peers_len st now msg h1

theorem meshLoop_tables (st : MeshState) (now : Nat) :
    ((meshLoop st now).1.peers = st.peers ∨
      (meshLoop st now).1.peers = removeStalePeers now st.peers) ∧
    (meshLoop st now).1.routingTable = st.routingTable := by
  unfold meshLoop
  by_cases h : HEARTBEAT_INTERVAL < sub32 now st.lastHeartbeat <;>
    simp [h, sendHeartbeat]

/-- C9: both tables respect the MAX_PEERS capacity in every reachable
state — each engine operation preserves the bounds (inserts into a full
table are dropped), and every state reached from init by any operation
sequence satisfies them. -/
theorem tables_bounded :
    (∀ (st : MeshState) (op : MeshOp),
      st.peers.length ≤ MAX_PEERS → st.routingTable.length ≤ MAX_PEERS →
      (stepState st op).peers.length ≤ MAX_PEERS ∧
      (stepState st op).routingTable.length ≤ MAX_PEERS) ∧
    (∀ (mac : List Nat) (ops : List MeshOp),
      (runOps mac ops).peers.length ≤ MAX_PEERS ∧
      (runOps mac ops).routingTable.length ≤ MAX_PEERS) := by
  have hstep : ∀ (st : MeshState) (op : MeshOp),
      st.peers.length ≤ MAX_PEERS → st.routingTable.length ≤ MAX_PEERS →
      (stepState st op).peers.length ≤ MAX_PEERS ∧
      (stepState st op).routingTable.length ≤ MAX_PEERS := by
    intro st op h1 h2
    cases op with
    | recv now msg => exact processMessage_bounded st now msg h1 h2
    | tick now =>
      obtain ⟨hp, hr⟩ := meshLoop_tables st now
      refine ⟨?_, ?_⟩
      · rcases hp with hp | hp
        · rw [stepState, hp]
          exact h1
        · rw [stepState, hp]
          have := removeStalePeers_length_le now st.peers
          omega
      · rw [stepState, hr]
        exact h2
    | send dest data len => exact ⟨h1, h2⟩
    | discover => exact ⟨h1, h2⟩
    | setGateway b => exact ⟨h1, h2⟩
  refine ⟨hstep, ?_⟩
  intro mac ops
  have hfold : ∀ (l : List MeshOp) (st : MeshState),
      st.peers.length ≤ MAX_PEERS → st.routingTable.length ≤ MAX_PEERS →
      (l.foldl stepState st).peers.length ≤ MAX_PEERS ∧
      (l.foldl stepState st).routingTable.length ≤ MAX_PEERS := by
    intro l
    induction l with
    | nil => intro st h1 h2; exact ⟨h1, h2⟩
    | cons op rest ih =>
      intro st h1 h2
      obtain ⟨g1, g2⟩ := hstep st op h1 h2
      exact ih _ g1 g2
  exact hfold ops (initState mac) (by simp [initState, MAX_PEERS])
    (by simp [initState, MAX_PEERS])

/-- C9 witness: one concrete step from a concrete bounded state keeps
both bounds, and a concrete run from init satisfies them. -/
theorem tables_bounded_witness :
    ((stepState exStWithPeer (MeshOp.recv 0 exHeartbeatGw)).peers.length ≤
        MAX_PEERS ∧
      (stepState exStWithPeer (MeshOp.recv 0 exHeartbeatGw)).routingTable.length ≤
        MAX_PEERS) ∧
    ((runOps exMac [MeshOp.recv 0 exDiscovery0]).peers.length ≤ MAX_PEERS ∧
      (runOps exMac [MeshOp.recv 0 exDiscovery0]).routingTable.length ≤
        MAX_PEERS) :=
  ⟨tables_bounded.1 exStWithPeer (MeshOp.recv 0 exHeartbeatGw)
      (by decide) (by decide),
   tables_bounded.2 exMac [MeshOp.recv 0 exDiscovery0]⟩

/-! Claim C10. -/

theorem touchPeerAt_rssi (now hop : Nat) :
    ∀ (l : List MeshPeer) (i : Nat), (∀ p ∈ l, p.rssi = -50) →
      ∀ p ∈ touchPeerAt now hop l i, p.rssi = -50
  | [], _, _ => by simp [touchPeerAt]
  | q :: rest, 0, h => by
    intro p hp
    rw [touchPeerAt] at hp
    rcases List.mem_cons.mp hp with hp | hp
    · subst hp
      exact h q (List.mem_cons_self q rest)
    · exact h p (List.mem_cons_of_mem q hp)
  | q :: rest, Nat.succ i, h => by
    intro p hp
    rw [touchPeerAt] at hp
    rcases List.mem_cons.mp hp with hp | hp
    · subst hp
      exact h p (List.mem_cons_self p rest)
    · exact touchPeerAt_rssi now hop rest i
        (fun x hx => h x (List.mem_cons_of_mem q hx)) p hp

theorem removeStalePeers_subset (now : Nat) (l : List MeshPeer) :
    ∀ p ∈ removeStalePeers now l, p ∈ l := by
  intro p hp
  rw [removeStalePeers_eq_filter now l] at hp
  exact (List.mem_filter.mp hp).1

theorem addPeer_rssi (now : Nat) (l : List MeshPeer) (mac : List Nat)
    (hop : Nat) (gw : Bool) (h : ∀ p ∈ l, p.rssi = -50) :
    ∀ p ∈ (addPeer now l mac (-50) hop gw).1, p.rssi = -50 := by
  have h1 : ∀ p ∈ (if MAX_PEERS ≤ l.length then removeStalePeers now l else l),
      p.rssi = -50 := by
    by_cases hl : MAX_PEERS ≤ l.length
    · simp only [hl, if_true]
      intro p hp
      exact h p (removeStalePeers_subset now l p hp)
    · simp only [hl, if_false]
      exact h
  intro p hp
  simp only [addPeer] at hp
  by_cases hfull :
      MAX_PEERS ≤ (if MAX_PEERS ≤ l.length then removeStalePeers now l else l).length
  · rw [if_pos hfull] at hp
    exact h1 p hp
  · rw [if_neg hfull] at hp
    rcases List.mem_append.mp hp with hp | hp
    · exact h1 p hp
    · rcases List.mem_singleton.mp hp with rfl
      rfl

theorem peerUpdate_rssi (st : MeshState) (now : Nat) (msg : MeshMessage)
    (h : ∀ p ∈ st.peers, p.rssi = -50) :
    ∀ p ∈ (peerUpdate st now msg).peers, p.rssi = -50 := by
  unfold peerUpdate
  rcases hfp : findPeer msg.srcMac st.peers with _ | i
  · simp only
    exact addPeer_rssi now st.peers msg.srcMac msg.hopCount
      (msg.data.getD 0 0 == 1) h
  · simp only
    exact touchPeerAt_rssi now msg.hopCount st.peers i h

theorem processMessage_rssi (st : MeshState) (now : Nat) (msg : MeshMessage)
    (h : ∀ p ∈ st.peers, p.rssi = -50) :
    ∀ p ∈ (processMessage st now msg).1.peers, p.rssi = -50 := by
  by_cases hs : msg.srcMac = st.myMac
  · simp only [processMessage, hs, if_true]
    exact h
  · rw [processMessage_peers st now msg hs]
    exact peerUpdate_rssi st now msg h

/-- C10: every peer entry in every reachable state carries
`rssi = -50`: the hardcoded approximation is stored at insertion, the
link layer's actual signal strength is never consulted, and no
operation rewrites the field afterwards. -/
theorem peer_rssi_constant :
    (∀ (st : MeshState) (op : MeshOp), (∀ p ∈ st.peers, p.rssi = -50) →
      ∀ p ∈ (stepState st op).peers, p.rssi = -50) ∧
    (∀ (mac : List Nat) (ops : List MeshOp),
      ∀ p ∈ (runOps mac ops).peers, p.rssi = -50) := by
  have hstep : ∀ (st : MeshState) (op : MeshOp),
      (∀ p ∈ st.peers, p.rssi = -50) →
      ∀ p ∈ (stepState st op).peers, p.rssi = -50 := by
    intro st op h
    cases op with
    | recv now msg => exact processMessage_rssi st now msg h
    | tick now =>
      obtain ⟨hp, _⟩ := meshLoop_tables st now
      rcases hp with hp | hp
      · rw [stepState, hp]
        exact h
      · rw [stepState, hp]
        intro p hpm
        exact h p (removeStalePeers_subset now st.peers p hpm)
    | send dest data len => exact h
    | discover => exact h
    | setGateway b => exact h
  refine ⟨hstep, ?_⟩
  intro mac ops
  have hfold : ∀ (l : List MeshOp) (st : MeshState),
      (∀ p ∈ st.peers, p.rssi = -50) →
      ∀ p ∈ (l.foldl stepState st).peers, p.rssi = -50 := by
    intro l
    induction l with
    | nil => intro st h; exact h
    | cons op rest ih =>
      intro st h
      exact ih _ (hstep st op h)
  exact hfold ops (initState mac) (by simp [initState])

/-- C10 witness: the peer the engine inserts for a concrete received
HEARTBEAT carries rssi -50 (both via a single step from a concrete
state and via a run from init). -/
theorem peer_rssi_constant_witness :
    MeshPeer.rssi exPeer = -50 ∧
    MeshPeer.rssi
      { mac := exSrc, rssi := -50, lastSeen := 0, hopCount := 0,
        isGateway := true, isActive := true } = -50 :=
  ⟨peer_rssi_constant.1 exStWithPeer (MeshOp.setGateway true) (by decide)
      exPeer (by decide),
   peer_rssi_constant.2 exMac [MeshOp.recv 0 exHeartbeatGw]
      { mac := exSrc, rssi := -50, lastSeen := 0, hopCount := 0,
        isGateway := true, isActive := true } (by decide)⟩

end Mesh
